import Mathlib

/-!
Shallow embedding of the session-based paramset editing model of the
homematicip-local config panel: the single-channel edit controller
(`HmChannelConfig`) and the dual-endpoint link editor (`HmLinkConfig`),
together with the pending-change map they maintain.

JavaScript `Map<string, unknown>` objects are embedded as ordered
association lists; `Map.set` replaces an existing key in place or appends,
`Map.delete` removes the entry.  Parameter values are embedded as a small
inductive of the primitive value kinds the widgets produce, on which
JavaScript strict equality coincides with decidable equality.
-/

namespace HmConfig

/-- Primitive parameter values (boolean / number / string widgets); `vUndef`
stands for JavaScript `undefined`. Strict equality on these is `=`. -/
inductive Value where
  | vBool : Bool → Value
  | vInt : Int → Value
  | vStr : String → Value
  | vUndef : Value
deriving DecidableEq, Repr

/-- A JavaScript `Map<string, unknown>` as an ordered association list. -/
abbrev PMap := List (String × Value)

/-- JavaScript `Map.set`: replace the value of an existing key in place, else append. -/
def mapSet : PMap → String → Value → PMap
  | [], k, v => [(k, v)]
  | (k0, v0) :: rest, k, v =>
      if k0 = k then (k0, v) :: rest else (k0, v0) :: mapSet rest k v

/-- JavaScript `Map.delete`: remove the entry for a key. -/
def mapDelete : PMap → String → PMap
  | [], _ => []
  | (k0, v0) :: rest, k =>
      if k0 = k then rest else (k0, v0) :: mapDelete rest k

/-- JavaScript `Map.get` (the entry for the key, if any). -/
def mapLookup : PMap → String → Option Value
  | [], _ => none
  | (k0, v0) :: rest, k => if k0 = k then some v0 else mapLookup rest k

/-- JavaScript `Map.has`: the key has an entry. -/
def mapHas (m : PMap) (k : String) : Bool :=
  (mapLookup m k).isSome

/-- Keys are pairwise distinct — every value a JavaScript `Map` can hold. -/
def keysNodup (m : PMap) : Prop :=
  (m.map Prod.fst).Nodup

/-- One editable parameter of a form schema (the fields the controllers
read; `default?` models the optional `default`, `none` = `undefined`). -/
structure FormParameter where
  id : String
  label : String
  current_value : Value
  writable : Bool
  default? : Option Value
deriving DecidableEq, Repr

/-- One section of a form schema. -/
structure FormSection where
  id : String
  title : String
  parameters : List FormParameter
deriving DecidableEq, Repr

/-- A form schema: ordered sections of parameters. -/
structure FormSchema where
  channel_address : String
  channel_type : String
  sections : List FormSection
deriving DecidableEq, Repr

/-- All parameters of a schema in nested-loop order. -/
def schemaParams (sch : FormSchema) : List FormParameter :=
  sch.sections.foldl (fun acc sec => acc ++ sec.parameters) []

/-- Response of `session_set`. -/
structure SessionState where
  is_dirty : Bool
  can_undo : Bool
  can_redo : Bool
  validation_errors : List (String × String)
deriving DecidableEq, Repr

/-- Response of `session_undo` / `session_redo`. -/
structure UndoRedoResult where
  performed : Bool
  is_dirty : Bool
  can_undo : Bool
  can_redo : Bool
deriving DecidableEq, Repr

/-- Response of `session_save` / `put_paramset` (the fields the client
reads plus the rest of the wire shape). -/
structure SaveResult where
  success : Bool
  validated : Bool
  validation_errors : List (String × String)
  changes_applied : Int
deriving DecidableEq, Repr

/-- Observable side effects of a controller operation, in issuance order.
`toast` carries the localization key of the message shown. -/
inductive Effect where
  | getFormSchema
  | sessionOpen
  | sessionSet (parameter : String) (value : Value)
  | sessionUndo
  | sessionRedo
  | sessionSave
  | sessionDiscard
  | putParamset (values : PMap)
  | putLinkParamset (sender receiver : String) (values : PMap)
  | getLinkFormSchema (sender receiver : String)
  | getLinkProfiles
  | toast (message : String)
  | confirmDialog
deriving DecidableEq, Repr

/-- Network calls among the effects (dialogs and toasts are local UI). -/
def Effect.isNetworkCall : Effect → Bool
  | .toast _ => false
  | .confirmDialog => false
  | _ => true

/-- The state fields of `HmChannelConfig` the editing model reads/writes. -/
structure ChannelState where
  schema : Option FormSchema
  pendingChanges : PMap
  loading : Bool
  saving : Bool
  error : String
  validationErrors : List (String × String)
  sessionActive : Bool
  canUndo : Bool
  canRedo : Bool
deriving DecidableEq, Repr

/-- Embeds `_isDirty`: the pending-change map is non-empty. -/
def ChannelState.isDirty (s : ChannelState) : Bool :=
  decide (0 < s.pendingChanges.length)

/-- Environment of `_fetchSchema`: how the schema fetch and the subsequent
`session_open` call settle. -/
inductive FetchOutcome where
  | schemaFail (err : String)
  | openFail (sch : FormSchema) (err : String)
  | ok (sch : FormSchema)
deriving DecidableEq, Repr

/-- Embeds `_fetchSchema`: reset local tracking, fetch the schema, then open a
server session; any rejection lands in the shared `catch` which stores the
stringified error. -/
def fetchSchema (s : ChannelState) (o : FetchOutcome) : ChannelState × List Effect :=
  let s0 : ChannelState :=
    { s with loading := true, error := "", pendingChanges := [],
             validationErrors := [], canUndo := false, canRedo := false }
  match o with
  | .schemaFail err =>
      ({ s0 with error := err, loading := false }, [Effect.getFormSchema])
  | .openFail sch err =>
      ({ s0 with schema := some sch, error := err, loading := false },
       [Effect.getFormSchema, Effect.sessionOpen])
  | .ok sch =>
      ({ s0 with schema := some sch, sessionActive := true, loading := false },
       [Effect.getFormSchema, Effect.sessionOpen])

/-- Embeds `_handleValueChanged`: update the pending map synchronously, then, when a
session is active, forward the edit via `session_set`; its response replaces
the undo/redo flags and validation errors, its rejection is swallowed. -/
def handleValueChanged (s : ChannelState) (parameterId : String)
    (value currentValue : Value) (sync : Except Unit SessionState) :
    ChannelState × List Effect :=
  let pc := if value = currentValue
    then mapDelete s.pendingChanges parameterId
    else mapSet s.pendingChanges parameterId value
  let s1 := { s with pendingChanges := pc }
  if s1.sessionActive then
    match sync with
    | .ok st =>
        ({ s1 with canUndo := st.can_undo, canRedo := st.can_redo,
                   validationErrors := st.validation_errors },
         [Effect.sessionSet parameterId value])
    | .error _ => (s1, [Effect.sessionSet parameterId value])
  else (s1, [])

/-- Environment of `_refreshSchemaValues`: how the schema re-fetch settles. -/
inductive RefreshOutcome where
  | ok (sch : FormSchema)
  | fail (err : String)
deriving DecidableEq, Repr

/-- Embeds `_refreshSchemaValues`: re-fetch the schema and reset local tracking; on
rejection only the error is stored. -/
def refreshSchemaValues (s : ChannelState) (o : RefreshOutcome) :
    ChannelState × List Effect :=
  match o with
  | .ok sch =>
      ({ s with schema := some sch, pendingChanges := [] }, [Effect.getFormSchema])
  | .fail err => ({ s with error := err }, [Effect.getFormSchema])

/-- Embeds `_handleUndo`: no-op without an active session; otherwise call
`session_undo`, take over the undo/redo flags, and on `performed` re-fetch
the schema. -/
def handleUndo (s : ChannelState) (res : Except String UndoRedoResult)
    (refresh : RefreshOutcome) : ChannelState × List Effect :=
  if ¬s.sessionActive then (s, [])
  else
    match res with
    | .error err => ({ s with error := err }, [Effect.sessionUndo])
    | .ok r =>
        let s1 := { s with canUndo := r.can_undo, canRedo := r.can_redo }
        if r.performed then
          let (s2, fx) := refreshSchemaValues s1 refresh
          (s2, Effect.sessionUndo :: fx)
        else (s1, [Effect.sessionUndo])

/-- The staging step of `_handleResetDefaults` for one parameter. -/
def resetStage (acc : PMap) (p : FormParameter) : PMap :=
  if p.writable then
    match p.default? with
    | some d => if d ≠ p.current_value then mapSet acc p.id d else acc
    | none => acc
  else acc

/-- Embeds `_handleResetDefaults`: rebuild the pending map from scratch, staging the
default of every writable parameter whose default is defined and differs from
its current value; purely local. -/
def handleResetDefaults (s : ChannelState) : ChannelState × List Effect :=
  match s.schema with
  | none => (s, [])
  | some sch =>
      ({ s with pendingChanges := (schemaParams sch).foldl resetStage [] }, [])

/-- Environment of `_handleSave`: the confirmation answer, how the write call
of the taken branch settles, and how the re-fetch after success settles. -/
structure SaveEnv where
  confirmed : Bool
  sessionResult : Except String SaveResult
  putResult : Except String SaveResult
  refetch : FetchOutcome
deriving Repr

/-- Embeds `_handleSave`: no-op unless dirty and not already saving; confirm; then
either `session_save` (session active) or direct `put_paramset`; on success
clear the pending map, toast, and re-fetch (which reopens the session); on a
validation failure populate the errors and toast; on rejection store the
error and toast the failure message. -/
def handleSave (s : ChannelState) (env : SaveEnv) : ChannelState × List Effect :=
  if ¬s.isDirty ∨ s.saving then (s, [])
  else if ¬env.confirmed then (s, [Effect.confirmDialog])
  else
    let s1 := { s with saving := true, validationErrors := [] }
    if s1.sessionActive then
      match env.sessionResult with
      | .error err =>
          ({ s1 with error := err, saving := false },
           [Effect.confirmDialog, Effect.sessionSave,
            Effect.toast "channel_config.save_failed"])
      | .ok r =>
          if r.success then
            let s2 := { s1 with pendingChanges := [], sessionActive := false }
            let (s3, fx) := fetchSchema s2 env.refetch
            ({ s3 with saving := false },
             [Effect.confirmDialog, Effect.sessionSave,
              Effect.toast "channel_config.save_success"] ++ fx)
          else if 0 < r.validation_errors.length then
            ({ s1 with validationErrors := r.validation_errors, saving := false },
             [Effect.confirmDialog, Effect.sessionSave,
              Effect.toast "channel_config.validation_failed"])
          else
            ({ s1 with saving := false }, [Effect.confirmDialog, Effect.sessionSave])
    else
      match env.putResult with
      | .error err =>
          ({ s1 with error := err, saving := false },
           [Effect.confirmDialog, Effect.putParamset s.pendingChanges,
            Effect.toast "channel_config.save_failed"])
      | .ok r =>
          if r.success then
            let s2 := { s1 with pendingChanges := [] }
            let (s3, fx) := fetchSchema s2 env.refetch
            ({ s3 with saving := false },
             [Effect.confirmDialog, Effect.putParamset s.pendingChanges,
              Effect.toast "channel_config.save_success"] ++ fx)
          else if 0 < r.validation_errors.length then
            ({ s1 with validationErrors := r.validation_errors, saving := false },
             [Effect.confirmDialog, Effect.putParamset s.pendingChanges,
              Effect.toast "channel_config.validation_failed"])
          else
            ({ s1 with saving := false },
             [Effect.confirmDialog, Effect.putParamset s.pendingChanges])

/-- A resolved link profile: fixed values plus defaults for the editable
parameters (the fields `_handleProfileChange` reads). -/
structure ResolvedProfile where
  id : Int
  name : String
  fixed_params : List (String × Value)
  default_values : List (String × Value)
deriving DecidableEq, Repr

/-- The state fields of `HmLinkConfig` the editing model reads/writes. -/
structure LinkState where
  senderAddress : String
  receiverAddress : String
  receiverSchema : Option FormSchema
  senderSchema : Option FormSchema
  receiverPendingChanges : PMap
  senderPendingChanges : PMap
  loading : Bool
  saving : Bool
  error : String
  validationErrors : List (String × String)
  senderValidationErrors : List (String × String)
  profiles : Option (List ResolvedProfile)
  activeProfileId : Int
  selectedProfileId : Int
deriving DecidableEq, Repr

/-- Embeds `_isDirty` of the link editor: either endpoint's map is non-empty. -/
def LinkState.isDirty (s : LinkState) : Bool :=
  decide (0 < s.receiverPendingChanges.length) ||
  decide (0 < s.senderPendingChanges.length)

/-- First parameter with the given id across the sections of a schema. -/
def schemaFindParameter (sch : FormSchema) (parameterId : String) :
    Option FormParameter :=
  sch.sections.findSome? (fun sec => sec.parameters.find? (fun p => p.id == parameterId))

/-- Embeds `_findParameter` of the link editor: receiver schema first, then sender. -/
def linkFindParameter (s : LinkState) (parameterId : String) : Option FormParameter :=
  match s.receiverSchema with
  | some sch =>
      match schemaFindParameter sch parameterId with
      | some p => some p
      | none =>
          match s.senderSchema with
          | some sch2 => schemaFindParameter sch2 parameterId
          | none => none
  | none =>
      match s.senderSchema with
      | some sch2 => schemaFindParameter sch2 parameterId
      | none => none

/-- Embeds `_handleReceiverValueChanged`: track the edit in the receiver map. -/
def handleReceiverValueChanged (s : LinkState) (parameterId : String)
    (value currentValue : Value) : LinkState :=
  if value = currentValue then
    { s with receiverPendingChanges := mapDelete s.receiverPendingChanges parameterId }
  else
    { s with receiverPendingChanges := mapSet s.receiverPendingChanges parameterId value }

/-- Embeds `_handleSenderValueChanged`: track the edit in the sender map. -/
def handleSenderValueChanged (s : LinkState) (parameterId : String)
    (value currentValue : Value) : LinkState :=
  if value = currentValue then
    { s with senderPendingChanges := mapDelete s.senderPendingChanges parameterId }
  else
    { s with senderPendingChanges := mapSet s.senderPendingChanges parameterId value }

/-- The staging step of `_handleProfileChange` for one `(paramId, value)`
entry: stage it only when the parameter exists and its current value differs. -/
def profileStage (s : LinkState) (acc : PMap) (kv : String × Value) : PMap :=
  match linkFindParameter s kv.1 with
  | some param => if param.current_value ≠ kv.2 then mapSet acc kv.1 kv.2 else acc
  | none => acc

/-- Embeds `_handleProfileChange`: record the selection; for a real profile build a
fresh map from its fixed values then its defaults, staging only entries that
differ from the current value, and replace the receiver map with it. -/
def handleProfileChange (s : LinkState) (newProfileId : Int) : LinkState :=
  let s0 := { s with selectedProfileId := newProfileId }
  if newProfileId = 0 then s0
  else
    match s.profiles with
    | none => s0
    | some ps =>
        match ps.find? (fun p => p.id == newProfileId) with
        | none => s0
        | some profile =>
            let m1 := profile.fixed_params.foldl (profileStage s) []
            let m2 := profile.default_values.foldl (profileStage s) m1
            { s0 with receiverPendingChanges := m2 }

/-- Environment of `_fetchSchemas` of the link editor. -/
inductive LinkFetchOutcome where
  | ok (receiverSchema : FormSchema) (senderSchema : Option FormSchema)
       (profiles : Option (List ResolvedProfile)) (activeId : Int)
  | fail (err : String)
deriving DecidableEq, Repr

/-- Embeds `_fetchSchemas`: reset both pending maps and both error mappings, then
fetch both directions' schemas and the profiles in parallel (the sender fetch
falls back to `null` on rejection, which `ok` models with `none`). -/
def fetchSchemas (s : LinkState) (o : LinkFetchOutcome) : LinkState × List Effect :=
  let s0 : LinkState :=
    { s with loading := true, error := "",
             receiverPendingChanges := [], senderPendingChanges := [],
             validationErrors := [], senderValidationErrors := [] }
  let fx := [Effect.getLinkFormSchema s.senderAddress s.receiverAddress,
             Effect.getLinkFormSchema s.receiverAddress s.senderAddress,
             Effect.getLinkProfiles]
  match o with
  | .ok rs ss profs activeId =>
      ({ s0 with receiverSchema := some rs, senderSchema := ss,
                 profiles := profs, activeProfileId := activeId,
                 selectedProfileId := activeId, loading := false }, fx)
  | .fail err => ({ s0 with error := err, loading := false }, fx)

/-- Environment of the link editor's `_handleSave`: the confirmation answer,
how each endpoint's write settles when issued (`Except` rejection vs. a
resolution carrying the response's `success` field), and the re-fetch. -/
structure LinkSaveEnv where
  confirmed : Bool
  receiverOutcome : Except String Bool
  senderOutcome : Except String Bool
  refetch : LinkFetchOutcome
deriving Repr

/-- The rejection reason of one endpoint's write, when that write was issued
at all (its pending map was non-empty) and its promise rejected. -/
def issuedError (issued : Bool) (outcome : Except String Bool) : Option String :=
  if issued then
    match outcome with
    | .error e => some e
    | .ok _ => none
  else none

/-- The write calls `_handleSave` of the link editor issues: one per endpoint
with a non-empty pending map. -/
def linkSaveCalls (s : LinkState) : List Effect :=
  (if 0 < s.receiverPendingChanges.length then
    [Effect.putLinkParamset s.senderAddress s.receiverAddress
      s.receiverPendingChanges] else []) ++
  (if 0 < s.senderPendingChanges.length then
    [Effect.putLinkParamset s.receiverAddress s.senderAddress
      s.senderPendingChanges] else [])

/-- Embeds `_handleSave` of the link editor: no-op unless dirty and not
saving; confirm; issue one `put_link_paramset` per endpoint with a non-empty
pending map; `Promise.all` over them — if any issued call rejects, store the
error and toast the failure; otherwise clear both maps, toast success, and
re-fetch both schemas. -/
def linkHandleSave (s : LinkState) (env : LinkSaveEnv) : LinkState × List Effect :=
  if ¬s.isDirty ∨ s.saving then (s, [])
  else if ¬env.confirmed then (s, [Effect.confirmDialog])
  else
    let s1 := { s with saving := true, validationErrors := [],
                       senderValidationErrors := [] }
    let calls := linkSaveCalls s
    let recvErr := issuedError (decide (0 < s.receiverPendingChanges.length))
      env.receiverOutcome
    let sendErr := issuedError (decide (0 < s.senderPendingChanges.length))
      env.senderOutcome
    match recvErr.orElse (fun _ => sendErr) with
    | some err =>
        ({ s1 with error := err, saving := false },
         Effect.confirmDialog :: calls ++ [Effect.toast "link_config.save_failed"])
    | none =>
        let s2 := { s1 with receiverPendingChanges := [], senderPendingChanges := [] }
        let res := fetchSchemas s2 env.refetch
        ({ res.1 with saving := false },
         Effect.confirmDialog :: calls ++
           [Effect.toast "link_config.save_success"] ++ res.2)

/-- The result of the success branch of the link editor's `_handleSave`:
both pending maps cleared, success toast, both schemas re-fetched. -/
def linkSaveSuccessResult (s : LinkState) (o : LinkFetchOutcome) :
    LinkState × List Effect :=
  let s2 : LinkState :=
    { s with saving := true, validationErrors := [], senderValidationErrors := [],
             receiverPendingChanges := [], senderPendingChanges := [] }
  let res := fetchSchemas s2 o
  ({ res.1 with saving := false },
   Effect.confirmDialog :: linkSaveCalls s ++
     [Effect.toast "link_config.save_success"] ++ res.2)

/-- Write calls among the link editor's effects. -/
def Effect.isLinkWrite : Effect → Bool
  | .putLinkParamset _ _ _ => true
  | _ => false

/-- Modelled from the spec: "this is equivalent to N individual SetValue
calls" — apply the profile's fixed and default entries, in order, as
individual value-changed events (each carrying the parameter's current value,
`undefined` when the parameter is unknown) to a starting pending map. -/
def applyProfileAsSetValues (s : LinkState) (profile : ResolvedProfile)
    (start : PMap) : PMap :=
  (profile.fixed_params ++ profile.default_values).foldl
    (fun acc kv =>
      let cv := match linkFindParameter s kv.1 with
        | some p => p.current_value
        | none => Value.vUndef
      if kv.2 = cv then mapDelete acc kv.1 else mapSet acc kv.1 kv.2)
    start

/-- Pointwise description of what `_handleResetDefaults` stages for a
parameter id: the first schema parameter with that id, when it is writable
with a defined default that differs from its current value. -/
def stagedDefault (sch : FormSchema) (parameterId : String) : Option Value :=
  match (schemaParams sch).find? (fun p => p.id == parameterId) with
  | some p =>
      if p.writable then
        match p.default? with
        | some d => if d ≠ p.current_value then some d else none
        | none => none
      else none
  | none => none

/-- Fixture: a current-value assignment where every parameter reads 10. -/
def exCurrent : String → Value := fun _ => Value.vInt 10

/-- Fixture: an idle single-channel state (no schema, nothing pending). -/
def exIdle : ChannelState := ⟨none, [], false, false, "", [], false, false, false⟩

/-- Fixture schema: parameter A (current 1, default 1) and B (current 2,
default 0), both writable. -/
def exSchemaAB : FormSchema :=
  ⟨"ch", "t", [⟨"sec", "Sec",
    [⟨"A", "A", Value.vInt 1, true, some (Value.vInt 1)⟩,
     ⟨"B", "B", Value.vInt 2, true, some (Value.vInt 0)⟩]⟩]⟩

/-- Fixture schema: a single writable parameter A without a default. -/
def exSchemaND : FormSchema :=
  ⟨"ch", "t", [⟨"sec", "Sec", [⟨"A", "A", Value.vInt 1, true, none⟩]⟩]⟩

/-- Fixture: state over `exSchemaND` with a pending edit on A. -/
def exStateND : ChannelState :=
  ⟨some exSchemaND, [("A", Value.vInt 2)], false, false, "", [], false, false, false⟩

/-- Fixture: a dirty single-channel state with an active session. -/
def exSession : ChannelState :=
  ⟨some exSchemaAB, [("P1", Value.vInt 7)], false, false, "", [], true, false, false⟩

/-- Fixture: a failed save response with one per-parameter error. -/
def exFailResult : SaveResult := ⟨false, false, [("P1", "bad")], 0⟩

/-- Fixture: a successful save response. -/
def exOkResult : SaveResult := ⟨true, true, [], 1⟩

/-- Fixture: a link state with one pending receiver change and none for the
sender. -/
def exLink : LinkState :=
  ⟨"SND", "RCV", none, none, [("X", Value.vInt 1)], [], false, false, "", [],
   [], none, 0, 0⟩

/-- Fixture schema for the link editor: parameters X and Y, both current 0. -/
def exLinkSchema : FormSchema :=
  ⟨"ch", "t", [⟨"sec", "Sec",
    [⟨"X", "X", Value.vInt 0, true, none⟩,
     ⟨"Y", "Y", Value.vInt 0, true, none⟩]⟩]⟩

/-- Fixture: a profile fixing X to 1. -/
def exProfile : ResolvedProfile := ⟨1, "p", [("X", Value.vInt 1)], []⟩

/-- Fixture: a link state with schema `exLinkSchema`, profile `exProfile`,
and a prior pending receiver entry on Y. -/
def exLinkProf : LinkState :=
  ⟨"SND", "RCV", some exLinkSchema, none, [("Y", Value.vInt 1)], [], false,
   false, "", [], [], some [exProfile], 0, 0⟩

/-- Lookup fails exactly when the key has no entry. -/
theorem mapLookup_eq_none (m : PMap) (k : String) :
    mapLookup m k = none ↔ k ∉ m.map Prod.fst := by
  induction m with
  | nil => simp [mapLookup]
  | cons hd tl ih =>
      obtain ⟨k0, v0⟩ := hd
      by_cases hk : k0 = k
      · subst hk
        simp [mapLookup]
      · simp only [mapLookup, if_neg hk, ih, List.map_cons, List.mem_cons, not_or]
        constructor
        · intro h
          exact ⟨fun hc => hk hc.symm, h⟩
        · intro h
          exact h.2

/-- Lookup after `mapSet`. -/
theorem mapLookup_mapSet (m : PMap) (k k' : String) (v : Value) :
    mapLookup (mapSet m k v) k' = if k' = k then some v else mapLookup m k' := by
  induction m with
  | nil =>
      simp only [mapSet, mapLookup]
      rcases eq_or_ne k k' with h | h
      · simp [h]
      · simp [h, Ne.symm h]
  | cons hd tl ih =>
      obtain ⟨k0, v0⟩ := hd
      by_cases hk : k0 = k
      · subst hk
        simp only [mapSet, if_pos rfl, mapLookup]
        rcases eq_or_ne k0 k' with h0 | h0
        · subst h0; simp
        · simp [h0, Ne.symm h0]
      · simp only [mapSet, if_neg hk, mapLookup]
        rcases eq_or_ne k0 k' with h0 | h0
        · subst h0
          simp [hk]
        · simp [h0, ih]

/-- With pairwise-distinct keys, lookup after deleting the key fails. -/
theorem mapLookup_mapDelete_self {m : PMap} (hnd : keysNodup m) (k : String) :
    mapLookup (mapDelete m k) k = none := by
  induction m with
  | nil => rfl
  | cons hd tl ih =>
      obtain ⟨k0, v0⟩ := hd
      simp only [keysNodup, List.map_cons, List.nodup_cons] at hnd
      by_cases hk : k0 = k
      · subst hk
        simp only [mapDelete, if_pos rfl]
        exact (mapLookup_eq_none tl k0).mpr hnd.1
      · simp only [mapDelete, if_neg hk, mapLookup, if_neg hk]
        exact ih hnd.2

/-- Membership of a key after `mapSet`. -/
theorem mapHas_mapSet_iff (m : PMap) (k k' : String) (v : Value) :
    mapHas (mapSet m k v) k' = true ↔ k' = k ∨ mapHas m k' = true := by
  simp only [mapHas, mapLookup_mapSet]
  rcases eq_or_ne k' k with h | h
  · simp [h]
  · simp [h]

/-- With pairwise-distinct keys, a deleted key is gone. -/
theorem mapHas_mapDelete_self {m : PMap} (hnd : keysNodup m) (k : String) :
    mapHas (mapDelete m k) k = false := by
  simp [mapHas, mapLookup_mapDelete_self hnd]

/-- Deleting a key the map does not have is the identity. -/
theorem mapDelete_of_not_has {m : PMap} {k : String} (h : mapHas m k = false) :
    mapDelete m k = m := by
  induction m with
  | nil => rfl
  | cons hd tl ih =>
      obtain ⟨k0, v0⟩ := hd
      by_cases hk : k0 = k
      · subst hk
        simp [mapHas, mapLookup] at h
      · simp only [mapHas, mapLookup, if_neg hk] at h
        simp only [mapDelete, if_neg hk]
        rw [ih h]

/-- Entries of a map after `mapSet` are the new pair or old entries. -/
theorem mem_mapSet {m : PMap} {k : String} {v : Value} {kv : String × Value}
    (h : kv ∈ mapSet m k v) : kv = (k, v) ∨ kv ∈ m := by
  induction m with
  | nil => simp only [mapSet, List.mem_singleton] at h; exact Or.inl h
  | cons hd tl ih =>
      obtain ⟨k0, v0⟩ := hd
      by_cases hk : k0 = k
      · subst hk
        simp only [mapSet, if_pos rfl] at h
        rcases List.mem_cons.mp h with h1 | h1
        · exact Or.inl h1
        · exact Or.inr (List.mem_cons_of_mem _ h1)
      · simp only [mapSet, if_neg hk] at h
        rcases List.mem_cons.mp h with h1 | h1
        · exact Or.inr (h1 ▸ List.mem_cons_self _ _)
        · rcases ih h1 with h2 | h2
          · exact Or.inl h2
          · exact Or.inr (List.mem_cons_of_mem _ h2)

/-- Entries after `mapDelete` were entries before. -/
theorem mem_mapDelete {m : PMap} {k : String} {kv : String × Value}
    (h : kv ∈ mapDelete m k) : kv ∈ m := by
  induction m with
  | nil => simp only [mapDelete] at h; exact absurd h (List.not_mem_nil kv)
  | cons hd tl ih =>
      obtain ⟨k0, v0⟩ := hd
      by_cases hk : k0 = k
      · subst hk
        simp only [mapDelete, if_pos rfl] at h
        exact List.mem_cons_of_mem _ h
      · simp only [mapDelete, if_neg hk] at h
        rcases List.mem_cons.mp h with h1 | h1
        · exact h1 ▸ List.mem_cons_self _ _
        · exact List.mem_cons_of_mem _ (ih h1)

/-- The result of `mapSet` is never empty. -/
theorem mapSet_ne_nil (m : PMap) (k : String) (v : Value) : mapSet m k v ≠ [] := by
  cases m with
  | nil => simp [mapSet]
  | cons hd tl =>
      obtain ⟨k0, v0⟩ := hd
      by_cases hk : k0 = k <;> simp [mapSet, hk]

/-- Dirtiness of the single-channel controller is non-emptiness. -/
theorem isDirty_iff (s : ChannelState) : s.isDirty = true ↔ s.pendingChanges ≠ [] := by
  simp [ChannelState.isDirty, List.length_pos]

/-- Dirtiness of the link editor is non-emptiness of one of the two maps. -/
theorem linkIsDirty_iff (s : LinkState) :
    s.isDirty = true ↔ s.receiverPendingChanges ≠ [] ∨ s.senderPendingChanges ≠ [] := by
  simp [LinkState.isDirty, List.length_pos]

/-- The pending map written by `_handleValueChanged`, independent of the
session branch. -/
theorem handleValueChanged_pendingChanges (s : ChannelState) (pid : String)
    (v cv : Value) (sync : Except Unit SessionState) :
    (handleValueChanged s pid v cv sync).1.pendingChanges =
      if v = cv then mapDelete s.pendingChanges pid
      else mapSet s.pendingChanges pid v := by
  unfold handleValueChanged
  cases hsa : s.sessionActive <;> cases sync <;> simp [hsa]

/-- A non-empty list all of whose members satisfy a property has a member
satisfying it. -/
theorem ne_nil_iff_exists_mem {α : Type} {P : α → Prop} {l : List α}
    (hall : ∀ x ∈ l, P x) : l ≠ [] ↔ ∃ x ∈ l, P x := by
  constructor
  · intro hne
    obtain ⟨x, hx⟩ := List.exists_mem_of_ne_nil l hne
    exact ⟨x, hx, hall x hx⟩
  · rintro ⟨x, hx, _⟩
    exact List.ne_nil_of_mem hx

/-- C1: after `SetValue(parameterId, newValue)` on the single-channel
controller, the pending map has an entry for `parameterId` iff `newValue`
differs (strict equality) from the event's `currentValue`; setting back to
the current value removes the entry; and, given that every tracked entry
differs from its parameter's current value, `isDirty` is equivalent to some
parameter having a pending value different from its current value. -/
theorem c1_setValue_pending_iff_differs (s : ChannelState) (pid : String)
    (v cv : Value) (sync : Except Unit SessionState) (current : String → Value)
    (hnd : keysNodup s.pendingChanges)
    (hinv : ∀ kv ∈ s.pendingChanges, kv.2 ≠ current kv.1)
    (hcv : cv = current pid) :
    (mapHas (handleValueChanged s pid v cv sync).1.pendingChanges pid = true ↔ v ≠ cv) ∧
    (∀ kv ∈ (handleValueChanged s pid v cv sync).1.pendingChanges,
      kv.2 ≠ current kv.1) ∧
    ((handleValueChanged s pid v cv sync).1.isDirty = true ↔
      ∃ kv ∈ (handleValueChanged s pid v cv sync).1.pendingChanges,
        kv.2 ≠ current kv.1) := by
  rw [isDirty_iff, handleValueChanged_pendingChanges]
  by_cases hv : v = cv
  · rw [if_pos hv]
    have hb : ∀ kv ∈ mapDelete s.pendingChanges pid, kv.2 ≠ current kv.1 :=
      fun kv hkv => hinv kv (mem_mapDelete hkv)
    refine ⟨?_, hb, ne_nil_iff_exists_mem hb⟩
    simp [mapHas_mapDelete_self hnd, hv]
  · rw [if_neg hv]
    have hb : ∀ kv ∈ mapSet s.pendingChanges pid v, kv.2 ≠ current kv.1 := by
      intro kv hkv
      rcases mem_mapSet hkv with h1 | h1
      · rw [h1]
        rw [hcv] at hv
        exact hv
      · exact hinv kv h1
    refine ⟨?_, hb, ne_nil_iff_exists_mem hb⟩
    simp [mapHas_mapSet_iff, hv]

/-- Witness for C1 at `P1` with current value 10 and new value 7. -/
theorem c1_setValue_pending_iff_differs_witness :
    mapHas (handleValueChanged exIdle "P1" (Value.vInt 7) (Value.vInt 10)
      (Except.error ())).1.pendingChanges "P1" = true ∧
    (handleValueChanged exIdle "P1" (Value.vInt 7) (Value.vInt 10)
      (Except.error ())).1.isDirty = true := by
  have h := c1_setValue_pending_iff_differs exIdle "P1" (Value.vInt 7)
    (Value.vInt 10) (Except.error ()) exCurrent
    (by simp [keysNodup, exIdle]) (by simp [exIdle]) rfl
  refine ⟨h.1.mpr (by decide), h.2.2.mpr ⟨("P1", Value.vInt 7), by decide, by decide⟩⟩

/-- C2: a confirmed save answered with a validation failure (success false,
non-empty validation errors) leaves the pending map exactly as it was, sets
the per-parameter validation errors from the response, and shows the failure
notification. -/
theorem c2_validation_failure_preserves_pending (s : ChannelState) (env : SaveEnv)
    (r : SaveResult)
    (hd : s.isDirty = true) (hsv : s.saving = false) (hc : env.confirmed = true)
    (hr : (if s.sessionActive then env.sessionResult else env.putResult) = Except.ok r)
    (hfail : r.success = false) (hve : r.validation_errors ≠ []) :
    (handleSave s env).1.pendingChanges = s.pendingChanges ∧
    (handleSave s env).1.validationErrors = r.validation_errors ∧
    Effect.toast "channel_config.validation_failed" ∈ (handleSave s env).2 := by
  have hlen : 0 < r.validation_errors.length := List.length_pos.mpr hve
  cases hsa : s.sessionActive
  · rw [hsa] at hr
    simp at hr
    unfold handleSave
    simp [hd, hsv, hc, hsa, hr, hfail, hlen]
  · rw [hsa] at hr
    simp at hr
    unfold handleSave
    simp [hd, hsv, hc, hsa, hr, hfail, hlen]

/-- Witness for C2: dirty session state, confirmed, response rejects `P1`. -/
theorem c2_validation_failure_preserves_pending_witness :
    (handleSave exSession ⟨true, Except.ok exFailResult, Except.ok exFailResult,
      FetchOutcome.schemaFail "x"⟩).1.pendingChanges = exSession.pendingChanges ∧
    (handleSave exSession ⟨true, Except.ok exFailResult, Except.ok exFailResult,
      FetchOutcome.schemaFail "x"⟩).1.validationErrors = exFailResult.validation_errors := by
  have h := c2_validation_failure_preserves_pending exSession
    ⟨true, Except.ok exFailResult, Except.ok exFailResult, FetchOutcome.schemaFail "x"⟩
    exFailResult (by decide) rfl rfl (by simp [exSession]) rfl (by decide)
  exact ⟨h.1, h.2.1⟩

/-- C3: a confirmed save whose response (on the taken branch — session save
when the session is active, direct `put_paramset` in degraded mode) reports
success, with the re-fetch and session re-open succeeding, leaves the
pending map empty (not dirty), shows the success notification, re-fetches
the schema with the session reopened, and an immediately subsequent save is
a no-op issuing no effect at all (in particular no network call). -/
theorem c3_success_clears_and_next_save_noop (s : ChannelState) (env : SaveEnv)
    (r : SaveResult) (sch : FormSchema)
    (hd : s.isDirty = true) (hsv : s.saving = false) (hc : env.confirmed = true)
    (hr : (if s.sessionActive then env.sessionResult else env.putResult) = Except.ok r)
    (hsucc : r.success = true) (hrf : env.refetch = FetchOutcome.ok sch) :
    (handleSave s env).1.pendingChanges = [] ∧
    (handleSave s env).1.isDirty = false ∧
    Effect.toast "channel_config.save_success" ∈ (handleSave s env).2 ∧
    Effect.getFormSchema ∈ (handleSave s env).2 ∧
    Effect.sessionOpen ∈ (handleSave s env).2 ∧
    (handleSave s env).1.sessionActive = true ∧
    (handleSave s env).1.schema = some sch ∧
    (∀ env2 : SaveEnv, handleSave (handleSave s env).1 env2 = ((handleSave s env).1, [])) := by
  cases hsa : s.sessionActive
  · rw [hsa] at hr
    simp at hr
    have hmain : handleSave s env =
        ({ s with pendingChanges := [], loading := false, error := "",
                  validationErrors := [], canUndo := false, canRedo := false,
                  schema := some sch, sessionActive := true, saving := false },
         [Effect.confirmDialog, Effect.putParamset s.pendingChanges,
          Effect.toast "channel_config.save_success",
          Effect.getFormSchema, Effect.sessionOpen]) := by
      unfold handleSave
      simp [hd, hsv, hc, hsa, hr, hsucc, hrf, fetchSchema]
    rw [hmain]
    refine ⟨rfl, by simp [ChannelState.isDirty], by simp, by simp, by simp, rfl, rfl, ?_⟩
    intro env2
    unfold handleSave
    simp [ChannelState.isDirty]
  · rw [hsa] at hr
    simp at hr
    have hmain : handleSave s env =
        ({ s with pendingChanges := [], loading := false, error := "",
                  validationErrors := [], canUndo := false, canRedo := false,
                  schema := some sch, sessionActive := true, saving := false },
         [Effect.confirmDialog, Effect.sessionSave,
          Effect.toast "channel_config.save_success",
          Effect.getFormSchema, Effect.sessionOpen]) := by
      unfold handleSave
      simp [hd, hsv, hc, hsa, hr, hsucc, hrf, fetchSchema]
    rw [hmain]
    refine ⟨rfl, by simp [ChannelState.isDirty], by simp, by simp, by simp, rfl, rfl, ?_⟩
    intro env2
    unfold handleSave
    simp [ChannelState.isDirty]

/-- Witness for C3: a dirty session-active state saved through the session
branch, and a dirty session-inactive state saved through the direct branch;
both confirmed, with successful responses and a successful re-fetch. -/
theorem c3_success_clears_and_next_save_noop_witness :
    (handleSave exSession ⟨true, Except.ok exOkResult, Except.ok exOkResult,
      FetchOutcome.ok exSchemaAB⟩).1.pendingChanges = [] ∧
    (handleSave exSession ⟨true, Except.ok exOkResult, Except.ok exOkResult,
      FetchOutcome.ok exSchemaAB⟩).1.sessionActive = true ∧
    (handleSave exStateND ⟨true, Except.ok exOkResult, Except.ok exOkResult,
      FetchOutcome.ok exSchemaAB⟩).1.pendingChanges = [] ∧
    (handleSave exStateND ⟨true, Except.ok exOkResult, Except.ok exOkResult,
      FetchOutcome.ok exSchemaAB⟩).1.sessionActive = true := by
  have h1 := c3_success_clears_and_next_save_noop exSession
    ⟨true, Except.ok exOkResult, Except.ok exOkResult, FetchOutcome.ok exSchemaAB⟩
    exOkResult exSchemaAB (by decide) rfl rfl rfl rfl rfl
  have h2 := c3_success_clears_and_next_save_noop exStateND
    ⟨true, Except.ok exOkResult, Except.ok exOkResult, FetchOutcome.ok exSchemaAB⟩
    exOkResult exSchemaAB (by decide) rfl rfl rfl rfl rfl
  exact ⟨h1.1, h1.2.2.2.2.2.1, h2.1, h2.2.2.2.2.2.1⟩

/-- C7: an undo on an active session whose response has `performed = true`,
with the subsequent schema re-fetch succeeding, empties the pending map
regardless of its prior contents and installs the re-fetched schema. -/
theorem c7_undo_performed_clears_pending (s : ChannelState) (r : UndoRedoResult)
    (sch : FormSchema)
    (hsa : s.sessionActive = true) (hp : r.performed = true) :
    (handleUndo s (Except.ok r) (RefreshOutcome.ok sch)).1.pendingChanges = [] ∧
    (handleUndo s (Except.ok r) (RefreshOutcome.ok sch)).1.schema = some sch ∧
    Effect.getFormSchema ∈ (handleUndo s (Except.ok r) (RefreshOutcome.ok sch)).2 := by
  unfold handleUndo
  simp [hsa, hp, refreshSchemaValues]

/-- Witness for C7: dirty session state, `performed = true`. -/
theorem c7_undo_performed_clears_pending_witness :
    (handleUndo exSession (Except.ok ⟨true, false, true, false⟩)
      (RefreshOutcome.ok exSchemaAB)).1.pendingChanges = [] ∧
    (handleUndo exSession (Except.ok ⟨true, false, true, false⟩)
      (RefreshOutcome.ok exSchemaAB)).1.schema = some exSchemaAB := by
  have h := c7_undo_performed_clears_pending exSession ⟨true, false, true, false⟩
    exSchemaAB (by simp [exSession]) rfl
  exact ⟨h.1, h.2.1⟩

/-- The link editor's schema re-fetch always issues both directions' schema
fetches and the profile fetch. -/
theorem fetchSchemas_effects (s : LinkState) (o : LinkFetchOutcome) :
    (fetchSchemas s o).2 =
      [Effect.getLinkFormSchema s.senderAddress s.receiverAddress,
       Effect.getLinkFormSchema s.receiverAddress s.senderAddress,
       Effect.getLinkProfiles] := by
  cases o <;> rfl

/-- The link editor's schema re-fetch resets both pending maps. -/
theorem fetchSchemas_pending (s : LinkState) (o : LinkFetchOutcome) :
    (fetchSchemas s o).1.receiverPendingChanges = [] ∧
    (fetchSchemas s o).1.senderPendingChanges = [] := by
  cases o <;> exact ⟨rfl, rfl⟩

/-- A resolved write outcome never yields a rejection reason. -/
theorem issuedError_ok (d : Bool) (b : Bool) :
    issuedError d (Except.ok b) = none := by
  cases d <;> rfl

/-- The issued write calls are all link writes. -/
theorem filter_isLinkWrite_linkSaveCalls (s : LinkState) :
    (linkSaveCalls s).filter Effect.isLinkWrite = linkSaveCalls s := by
  unfold linkSaveCalls
  split_ifs <;> simp [Effect.isLinkWrite]

/-- The effect list of a confirmed, non-degenerate link save: the dialog,
the issued write calls, and either the failure toast or the success toast
followed by the re-fetch effects. -/
theorem linkHandleSave_effects (s : LinkState) (env : LinkSaveEnv)
    (hdirty : s.isDirty = true) (hsv : s.saving = false) (hc : env.confirmed = true) :
    (linkHandleSave s env).2 =
      Effect.confirmDialog :: linkSaveCalls s ++
        [Effect.toast "link_config.save_failed"] ∨
    (linkHandleSave s env).2 =
      Effect.confirmDialog :: linkSaveCalls s ++
        [Effect.toast "link_config.save_success"] ++
        [Effect.getLinkFormSchema s.senderAddress s.receiverAddress,
         Effect.getLinkFormSchema s.receiverAddress s.senderAddress,
         Effect.getLinkProfiles] := by
  unfold linkHandleSave
  rw [if_neg (by simp [hdirty, hsv]), if_neg (by simp [hc])]
  cases hE : (issuedError (decide (0 < s.receiverPendingChanges.length))
      env.receiverOutcome).orElse
      (fun _ => issuedError (decide (0 < s.senderPendingChanges.length))
        env.senderOutcome) with
  | some err =>
      left
      simp [hE]
  | none =>
      right
      simp [hE, fetchSchemas_effects]

/-- C4: a confirmed link save issues exactly one write call per endpoint
whose pending map is non-empty and none for an empty endpoint; in particular
with a non-empty receiver map and an empty sender map exactly the receiver
write is issued. -/
theorem c4_one_write_per_dirty_endpoint (s : LinkState) (env : LinkSaveEnv)
    (hsv : s.saving = false) (hc : env.confirmed = true) :
    ((linkHandleSave s env).2.filter Effect.isLinkWrite =
      (if 0 < s.receiverPendingChanges.length then
        [Effect.putLinkParamset s.senderAddress s.receiverAddress
          s.receiverPendingChanges] else []) ++
      (if 0 < s.senderPendingChanges.length then
        [Effect.putLinkParamset s.receiverAddress s.senderAddress
          s.senderPendingChanges] else [])) ∧
    (s.receiverPendingChanges ≠ [] → s.senderPendingChanges = [] →
      (linkHandleSave s env).2.filter Effect.isLinkWrite =
        [Effect.putLinkParamset s.senderAddress s.receiverAddress
          s.receiverPendingChanges]) := by
  have key : (linkHandleSave s env).2.filter Effect.isLinkWrite = linkSaveCalls s := by
    cases hdirty : s.isDirty
    · have hboth : ¬(s.receiverPendingChanges ≠ [] ∨ s.senderPendingChanges ≠ []) :=
        fun hcon => by simp [(linkIsDirty_iff s).mpr hcon] at hdirty
      push_neg at hboth
      unfold linkHandleSave
      simp [hdirty, linkSaveCalls, hboth.1, hboth.2]
    · rcases linkHandleSave_effects s env hdirty hsv hc with h | h <;>
        rw [h] <;>
        simp [List.filter_append, filter_isLinkWrite_linkSaveCalls, Effect.isLinkWrite]
  constructor
  · rw [key]
    rfl
  · intro hrne hse
    rw [key]
    unfold linkSaveCalls
    rw [hse]
    simp [List.length_pos.mpr hrne]

/-- Witness for C4: one pending receiver change, no sender changes. -/
theorem c4_one_write_per_dirty_endpoint_witness :
    (linkHandleSave exLink ⟨true, Except.ok true, Except.ok true,
      LinkFetchOutcome.fail "e"⟩).2.filter Effect.isLinkWrite =
      [Effect.putLinkParamset "SND" "RCV" [("X", Value.vInt 1)]] := by
  have h := (c4_one_write_per_dirty_endpoint exLink
    ⟨true, Except.ok true, Except.ok true, LinkFetchOutcome.fail "e"⟩ rfl rfl).2
    (by decide) rfl
  exact h

/-- C5: a confirmed link save in which some issued write call rejects keeps
both endpoints' pending maps exactly as they were, shows the failure
notification, and stores one of the rejection reasons as the error state. -/
theorem c5_partial_failure_keeps_changes (s : LinkState) (env : LinkSaveEnv)
    (hsv : s.saving = false) (hc : env.confirmed = true)
    (hfail : (0 < s.receiverPendingChanges.length ∧
               ∃ e, env.receiverOutcome = Except.error e) ∨
             (0 < s.senderPendingChanges.length ∧
               ∃ e, env.senderOutcome = Except.error e)) :
    (linkHandleSave s env).1.receiverPendingChanges = s.receiverPendingChanges ∧
    (linkHandleSave s env).1.senderPendingChanges = s.senderPendingChanges ∧
    Effect.toast "link_config.save_failed" ∈ (linkHandleSave s env).2 ∧
    ∃ e, (linkHandleSave s env).1.error = e ∧
      (env.receiverOutcome = Except.error e ∨ env.senderOutcome = Except.error e) := by
  have hdirty : s.isDirty = true := by
    rcases hfail with ⟨h1, _⟩ | ⟨h1, _⟩ <;> simp [LinkState.isDirty, h1]
  have hsome : ∃ e, (issuedError (decide (0 < s.receiverPendingChanges.length))
      env.receiverOutcome).orElse
      (fun _ => issuedError (decide (0 < s.senderPendingChanges.length))
        env.senderOutcome) = some e ∧
      (env.receiverOutcome = Except.error e ∨ env.senderOutcome = Except.error e) := by
    rcases hfail with ⟨h1, e, he⟩ | ⟨h1, e, he⟩
    · exact ⟨e, by simp [issuedError, h1, he, Option.orElse], Or.inl he⟩
    · by_cases h2 : ∃ e0, 0 < s.receiverPendingChanges.length ∧
          env.receiverOutcome = Except.error e0
      · obtain ⟨e0, h2l, h2r⟩ := h2
        exact ⟨e0, by simp [issuedError, h2l, h2r, Option.orElse], Or.inl h2r⟩
      · have hrnone : issuedError (decide (0 < s.receiverPendingChanges.length))
            env.receiverOutcome = none := by
          by_cases hl : 0 < s.receiverPendingChanges.length
          · cases hoc : env.receiverOutcome with
            | error e0 => exact absurd ⟨e0, hl, hoc⟩ h2
            | ok b => simp [issuedError, hl]
          · simp [issuedError, hl]
        refine ⟨e, ?_, Or.inr he⟩
        rw [hrnone]
        simp [Option.orElse, issuedError, h1, he]
  obtain ⟨e, he, hsrc⟩ := hsome
  have hmain : linkHandleSave s env =
      ({ s with saving := false, validationErrors := [],
                senderValidationErrors := [], error := e },
       Effect.confirmDialog :: linkSaveCalls s ++
         [Effect.toast "link_config.save_failed"]) := by
    unfold linkHandleSave
    rw [if_neg (by simp [hdirty, hsv]), if_neg (by simp [hc])]
    simp [he]
  rw [hmain]
  exact ⟨rfl, rfl, by simp, e, rfl, hsrc⟩

/-- Witness for C5: the receiver write rejects. -/
theorem c5_partial_failure_keeps_changes_witness :
    (linkHandleSave exLink ⟨true, Except.error "boom", Except.ok true,
      LinkFetchOutcome.fail "e"⟩).1.receiverPendingChanges =
        exLink.receiverPendingChanges ∧
    Effect.toast "link_config.save_failed" ∈
      (linkHandleSave exLink ⟨true, Except.error "boom", Except.ok true,
        LinkFetchOutcome.fail "e"⟩).2 := by
  have h := c5_partial_failure_keeps_changes exLink
    ⟨true, Except.error "boom", Except.ok true, LinkFetchOutcome.fail "e"⟩
    rfl rfl (Or.inl ⟨by decide, "boom", rfl⟩)
  exact ⟨h.1, h.2.2.1⟩

/-- C10: when every issued write resolves, a confirmed link save clears both
pending maps, shows the success notification, and re-fetches both schemas,
never inspecting the responses' `success` field: the result is the same as
if both writes had resolved with `success = true`. -/
theorem c10_resolved_writes_ignore_success_field (s : LinkState)
    (env : LinkSaveEnv) (b1 b2 : Bool)
    (hd : s.isDirty = true) (hsv : s.saving = false) (hc : env.confirmed = true)
    (h1 : env.receiverOutcome = Except.ok b1) (h2 : env.senderOutcome = Except.ok b2) :
    (linkHandleSave s env).1.receiverPendingChanges = [] ∧
    (linkHandleSave s env).1.senderPendingChanges = [] ∧
    Effect.toast "link_config.save_success" ∈ (linkHandleSave s env).2 ∧
    Effect.getLinkFormSchema s.senderAddress s.receiverAddress ∈
      (linkHandleSave s env).2 ∧
    Effect.getLinkFormSchema s.receiverAddress s.senderAddress ∈
      (linkHandleSave s env).2 ∧
    linkHandleSave s env =
      linkHandleSave s ⟨env.confirmed, Except.ok true, Except.ok true, env.refetch⟩ := by
  have hnone : ∀ oc1 oc2 : Except String Bool, ∀ c1 c2 : Bool,
      oc1 = Except.ok c1 → oc2 = Except.ok c2 →
      (issuedError (decide (0 < s.receiverPendingChanges.length)) oc1).orElse
        (fun _ => issuedError (decide (0 < s.senderPendingChanges.length)) oc2) =
        none := by
    intro oc1 oc2 c1 c2 e1 e2
    rw [e1, e2, issuedError_ok, issuedError_ok]
    rfl
  have hshape : ∀ env2 : LinkSaveEnv, env2.confirmed = true →
      (∃ c1, env2.receiverOutcome = Except.ok c1) →
      (∃ c2, env2.senderOutcome = Except.ok c2) →
      linkHandleSave s env2 = linkSaveSuccessResult s env2.refetch := by
    rintro env2 hc2 ⟨c1, e1⟩ ⟨c2, e2⟩
    have hz := hnone env2.receiverOutcome env2.senderOutcome c1 c2 e1 e2
    unfold linkHandleSave linkSaveSuccessResult
    rw [if_neg (by simp [hd, hsv]), if_neg (by simp [hc2])]
    simp [hz]
  have hm := hshape env hc ⟨b1, h1⟩ ⟨b2, h2⟩
  have hm2 := hshape ⟨env.confirmed, Except.ok true, Except.ok true, env.refetch⟩
    hc ⟨true, rfl⟩ ⟨true, rfl⟩
  refine ⟨?_, ?_, ?_, ?_, ?_, ?_⟩
  · rw [hm]
    exact (fetchSchemas_pending _ _).1
  · rw [hm]
    exact (fetchSchemas_pending _ _).2
  · rw [hm]
    simp [linkSaveSuccessResult]
  · rw [hm]
    simp [linkSaveSuccessResult, fetchSchemas_effects]
  · rw [hm]
    simp [linkSaveSuccessResult, fetchSchemas_effects]
  · rw [hm, hm2]

/-- Witness for C10: the receiver write resolves with `success = false`. -/
theorem c10_resolved_writes_ignore_success_field_witness :
    (linkHandleSave exLink ⟨true, Except.ok false, Except.ok true,
      LinkFetchOutcome.fail "e"⟩).1.receiverPendingChanges = [] ∧
    Effect.toast "link_config.save_success" ∈
      (linkHandleSave exLink ⟨true, Except.ok false, Except.ok true,
        LinkFetchOutcome.fail "e"⟩).2 := by
  have h := c10_resolved_writes_ignore_success_field exLink
    ⟨true, Except.ok false, Except.ok true, LinkFetchOutcome.fail "e"⟩
    false true (by decide) rfl rfl rfl rfl
  exact ⟨h.1, h.2.2.1⟩

/-- A staging step for a parameter with a different id leaves a key's lookup
unchanged. -/
theorem mapLookup_resetStage_ne (acc : PMap) (p : FormParameter) (pid : String)
    (h : p.id ≠ pid) :
    mapLookup (resetStage acc p) pid = mapLookup acc pid := by
  unfold resetStage
  by_cases hw : p.writable = true
  · cases hdef : p.default? with
    | some d =>
        by_cases hdc : d ≠ p.current_value
        · simp [hw, hdc, mapLookup_mapSet, Ne.symm h]
        · simp [hw, hdc]
    | none => simp [hw]
  · simp [hw]

/-- Folding the staging step over parameters with other ids leaves a key's
lookup unchanged. -/
theorem mapLookup_foldl_resetStage_not_mem (l : List FormParameter) (acc : PMap)
    (pid : String) (h : ∀ p ∈ l, p.id ≠ pid) :
    mapLookup (l.foldl resetStage acc) pid = mapLookup acc pid := by
  induction l generalizing acc with
  | nil => rfl
  | cons p t ih =>
      rw [List.foldl_cons, ih _ (fun q hq => h q (List.mem_cons_of_mem _ hq)),
        mapLookup_resetStage_ne acc p pid (h p (List.mem_cons_self _ _))]

/-- Pointwise description of the map built by folding the staging step of
`_handleResetDefaults`, for pairwise-distinct parameter ids. -/
theorem mapLookup_foldl_resetStage (l : List FormParameter) (acc : PMap)
    (pid : String) (hnd : (l.map FormParameter.id).Nodup) :
    mapLookup (l.foldl resetStage acc) pid =
      (match l.find? (fun p => p.id == pid) with
       | some p =>
           if p.writable then
             match p.default? with
             | some d => if d ≠ p.current_value then some d else mapLookup acc pid
             | none => mapLookup acc pid
           else mapLookup acc pid
       | none => mapLookup acc pid) := by
  induction l generalizing acc with
  | nil => rfl
  | cons p t ih =>
      rw [List.map_cons, List.nodup_cons] at hnd
      by_cases hp : p.id = pid
      · have hfind : (p :: t).find? (fun q => q.id == pid) = some p := by
          simp [List.find?_cons, hp]
        rw [hfind, List.foldl_cons]
        have htail : ∀ q ∈ t, q.id ≠ pid := by
          intro q hq hc
          apply hnd.1
          have hqp : q.id = p.id := by rw [hc, hp]
          rw [← hqp]
          exact List.mem_map_of_mem FormParameter.id hq
        rw [mapLookup_foldl_resetStage_not_mem t _ pid htail]
        unfold resetStage
        by_cases hw : p.writable = true
        · cases hdef : p.default? with
          | some d =>
              by_cases hdc : d ≠ p.current_value
              · simp [hw, hdef, hdc, mapLookup_mapSet, hp]
              · simp [hw, hdef, hdc]
          | none => simp [hw, hdef]
        · simp [hw]
      · have hfind : (p :: t).find? (fun q => q.id == pid) =
            t.find? (fun q => q.id == pid) := by
          simp [List.find?_cons, hp]
        rw [hfind, List.foldl_cons, ih _ hnd.2]
        have hacc : mapLookup (resetStage acc p) pid = mapLookup acc pid :=
          mapLookup_resetStage_ne acc p pid hp
        cases hf : t.find? (fun q => q.id == pid) with
        | some q =>
            by_cases hw : q.writable = true
            · cases hdef : q.default? with
              | some d =>
                  by_cases hdc : d ≠ q.current_value
                  · simp [hw, hdef, hdc]
                  · simp [hw, hdef, hdc, hacc]
              | none => simp [hw, hdef, hacc]
            · simp [hw, hacc]
        | none => exact hacc

/-- Counterexample for C6: parameter A is writable without a default — one
of the classes the claim says `ResetToDefaults` leaves untouched — yet its
pending entry, present before, is gone afterwards, because the operation
rebuilds the pending map from scratch. -/
theorem c6_counterexample :
    mapHas exStateND.pendingChanges "A" = true ∧
    exStateND.schema = some exSchemaND ∧
    ((schemaParams exSchemaND).find? (fun p => p.id == "A")).isSome = true ∧
    (∀ p ∈ schemaParams exSchemaND, p.default? = none) ∧
    mapHas (handleResetDefaults exStateND).1.pendingChanges "A" = false := by
  refine ⟨rfl, rfl, rfl, by decide, rfl⟩

/-- C6 as amended: `ResetToDefaults` replaces the pending map wholesale —
the result stages the default for exactly the writable parameters with a
defined default differing from their current value, any prior pending
entries (including those of read-only, defaultless, or already-at-default
parameters) are discarded, and no server call or other effect is issued. -/
theorem c6_amended_reset_rebuilds_from_defaults (s : ChannelState)
    (sch : FormSchema) (hs : s.schema = some sch)
    (hnd : ((schemaParams sch).map FormParameter.id).Nodup) :
    (handleResetDefaults s).2 = [] ∧
    ∀ pid, mapLookup (handleResetDefaults s).1.pendingChanges pid =
      stagedDefault sch pid := by
  unfold handleResetDefaults
  rw [hs]
  refine ⟨rfl, ?_⟩
  intro pid
  rw [mapLookup_foldl_resetStage (schemaParams sch) [] pid hnd]
  unfold stagedDefault
  cases hf : (schemaParams sch).find? (fun p => p.id == pid) with
  | some p =>
      by_cases hw : p.writable = true
      · cases hdef : p.default? with
        | some d =>
            by_cases hdc : d ≠ p.current_value
            · simp [hw, hdef, hdc]
            · simp [hw, hdef, hdc, mapLookup]
        | none => simp [hw, hdef, mapLookup]
      · simp [hw, mapLookup]
  | none => rfl

/-- Witness for C6 as amended, on the two-parameter schema: B (current 2,
default 0) is staged, A (already at its default) is not. -/
theorem c6_amended_reset_rebuilds_from_defaults_witness :
    mapLookup (handleResetDefaults exSession).1.pendingChanges "B" =
      stagedDefault exSchemaAB "B" ∧
    mapLookup (handleResetDefaults exSession).1.pendingChanges "A" =
      stagedDefault exSchemaAB "A" := by
  have h := c6_amended_reset_rebuilds_from_defaults exSession exSchemaAB rfl (by decide)
  exact ⟨h.2 "B", h.2 "A"⟩

/-- Counterexample for C8: when the schema fetch succeeds but the session
open fails, the shared catch stores the stringified error in the error
state, which the view renders as a banner — the failure is not silent as the
claim states. -/
theorem c8_counterexample :
    (fetchSchema exIdle (FetchOutcome.openFail exSchemaAB "boom")).1.error = "boom" ∧
    (fetchSchema exIdle (FetchOutcome.openFail exSchemaAB "boom")).1.schema =
      some exSchemaAB ∧
    (fetchSchema exIdle (FetchOutcome.openFail exSchemaAB "boom")).1.sessionActive =
      false ∧
    "boom" ≠ "" := by
  exact ⟨rfl, rfl, rfl, by decide⟩

/-- C8 as amended: a session-open failure after a successful schema fetch is
non-fatal — the schema stays loaded, the controller is in session-inactive
mode where edits are tracked purely locally (no session sync effect) and a
later confirmed save takes the direct `put_paramset` path, never
`session_save` — but the caught error is stored in the error state (shown as
a banner), so the failure is surfaced rather than silent. -/
theorem c8_amended_openfail_fallback (s : ChannelState) (sch : FormSchema)
    (err : String) (hsa : s.sessionActive = false) :
    (fetchSchema s (FetchOutcome.openFail sch err)).1.schema = some sch ∧
    (fetchSchema s (FetchOutcome.openFail sch err)).1.sessionActive = false ∧
    (fetchSchema s (FetchOutcome.openFail sch err)).1.error = err ∧
    (∀ s2 : ChannelState, s2.sessionActive = false →
      (∀ (pid : String) (v cv : Value) (sync : Except Unit SessionState),
        (handleValueChanged s2 pid v cv sync).2 = []) ∧
      (∀ env2 : SaveEnv, env2.confirmed = true → s2.saving = false →
        s2.isDirty = true →
        Effect.putParamset s2.pendingChanges ∈ (handleSave s2 env2).2 ∧
        Effect.sessionSave ∉ (handleSave s2 env2).2)) := by
  refine ⟨rfl, hsa, rfl, ?_⟩
  intro s2 hsa2
  constructor
  · intro pid v cv sync
    unfold handleValueChanged
    simp [hsa2]
  · intro env2 hc2 hsv2 hd2
    unfold handleSave
    rw [if_neg (by simp [hd2, hsv2]), if_neg (by simp [hc2]),
      if_neg (by simp [hsa2])]
    cases hpr : env2.putResult with
    | error e => simp [hpr]
    | ok r =>
        by_cases hsucc : r.success = true
        · cases hrf : env2.refetch <;> simp [hpr, hsucc, hrf, fetchSchema]
        · by_cases hval : 0 < r.validation_errors.length <;>
            simp [hpr, hsucc, hval]

/-- Witness for C8 as amended: a concrete session-open failure, and a later
direct-path save from a dirty session-inactive state. -/
theorem c8_amended_openfail_fallback_witness :
    (fetchSchema exIdle (FetchOutcome.openFail exSchemaAB "boom")).1.error =
      "boom" ∧
    Effect.putParamset exStateND.pendingChanges ∈
      (handleSave exStateND ⟨true, Except.ok exOkResult, Except.ok exOkResult,
        FetchOutcome.ok exSchemaAB⟩).2 := by
  have h := c8_amended_openfail_fallback exIdle exSchemaAB "boom" rfl
  refine ⟨h.2.2.1, ?_⟩
  exact ((h.2.2.2 exStateND rfl).2
    ⟨true, Except.ok exOkResult, Except.ok exOkResult, FetchOutcome.ok exSchemaAB⟩
    rfl rfl (by decide)).1

/-- Every entry produced by folding the profile staging step differs from
its parameter's current value, provided the accumulator's entries do. -/
theorem mem_foldl_profileStage (s : LinkState) (l : List (String × Value))
    (acc : PMap)
    (hacc : ∀ kv ∈ acc, ∃ p, linkFindParameter s kv.1 = some p ∧
      kv.2 ≠ p.current_value) :
    ∀ kv ∈ l.foldl (profileStage s) acc,
      ∃ p, linkFindParameter s kv.1 = some p ∧ kv.2 ≠ p.current_value := by
  induction l generalizing acc with
  | nil => exact hacc
  | cons kv0 t ih =>
      rw [List.foldl_cons]
      apply ih
      intro kv' hkv'
      unfold profileStage at hkv'
      split at hkv'
      next param hp =>
        split at hkv'
        next hcv =>
          rcases mem_mapSet hkv' with h1 | h1
          · subst h1
            exact ⟨param, hp, Ne.symm hcv⟩
          · exact hacc kv' h1
        next hcv => exact hacc kv' hkv'
      next hp => exact hacc kv' hkv'

/-- Folding the profile staging step over entries with pairwise-distinct,
schema-resolvable parameter ids coincides with applying the entries as
individual value-changed events, as long as the accumulator has none of the
ids yet. -/
theorem foldl_profileStage_eq_setValues (s : LinkState)
    (l : List (String × Value)) (acc : PMap)
    (hfound : ∀ kv ∈ l, (linkFindParameter s kv.1).isSome = true)
    (hnd : (l.map Prod.fst).Nodup)
    (hacc : ∀ kv ∈ l, mapHas acc kv.1 = false) :
    l.foldl (profileStage s) acc =
      l.foldl (fun acc2 kv =>
        let cv := match linkFindParameter s kv.1 with
          | some p => p.current_value
          | none => Value.vUndef
        if kv.2 = cv then mapDelete acc2 kv.1 else mapSet acc2 kv.1 kv.2) acc := by
  induction l generalizing acc with
  | nil => rfl
  | cons kv0 t ih =>
      rw [List.map_cons, List.nodup_cons] at hnd
      obtain ⟨p, hp⟩ := Option.isSome_iff_exists.mp
        (hfound kv0 (List.mem_cons_self _ _))
      simp only [List.foldl_cons]
      by_cases hv : kv0.2 = p.current_value
      · have h1 : profileStage s acc kv0 = acc := by
          unfold profileStage
          rw [hp]
          simp [hv]
        have h2 : (if kv0.2 = (match linkFindParameter s kv0.1 with
            | some q => q.current_value
            | none => Value.vUndef) then mapDelete acc kv0.1
            else mapSet acc kv0.1 kv0.2) = acc := by
          rw [hp]
          simp only [hv, if_pos]
          exact mapDelete_of_not_has (hacc kv0 (List.mem_cons_self _ _))
        rw [h1, h2]
        exact ih _ (fun kv h => hfound kv (List.mem_cons_of_mem _ h)) hnd.2
          (fun kv h => hacc kv (List.mem_cons_of_mem _ h))
      · have h1 : profileStage s acc kv0 = mapSet acc kv0.1 kv0.2 := by
          unfold profileStage
          rw [hp]
          simp [Ne.symm hv]
        have h2 : (if kv0.2 = (match linkFindParameter s kv0.1 with
            | some q => q.current_value
            | none => Value.vUndef) then mapDelete acc kv0.1
            else mapSet acc kv0.1 kv0.2) = mapSet acc kv0.1 kv0.2 := by
          rw [hp]
          simp [hv]
        rw [h1, h2]
        apply ih _ (fun kv h => hfound kv (List.mem_cons_of_mem _ h)) hnd.2
        intro kv h
        apply Bool.eq_false_iff.mpr
        intro htrue
        rcases (mapHas_mapSet_iff acc kv0.1 kv.1 kv0.2).mp htrue with hh | hh
        · exact hnd.1 (hh ▸ List.mem_map_of_mem Prod.fst h)
        · rw [hacc kv (List.mem_cons_of_mem _ h)] at hh
          cases hh

/-- Counterexample for C9: with a prior pending entry on Y (which the
profile does not mention), selecting the profile yields a different map than
applying the profile's values as individual SetValue calls to that prior
set — the code rebuilds the receiver map from scratch, dropping Y. -/
theorem c9_counterexample :
    (handleProfileChange exLinkProf 1).receiverPendingChanges ≠
      applyProfileAsSetValues exLinkProf exProfile
        exLinkProf.receiverPendingChanges ∧
    exLinkProf.profiles = some [exProfile] ∧
    [exProfile].find? (fun p => p.id == (1 : Int)) = some exProfile := by
  refine ⟨by decide, rfl, rfl⟩

/-- C9 as amended: selecting a profile replaces the receiver pending map
with the result of applying the profile's fixed and default values as N
individual SetValue calls to the empty map — the prior pending set is
discarded, not extended — provided every profile parameter resolves in the
schemas and no parameter id repeats across the fixed and default lists; the
"present iff differs from current" invariant holds for the result. -/
theorem c9_amended_profile_replaces_with_staged (s : LinkState) (n : Int)
    (ps : List ResolvedProfile) (profile : ResolvedProfile)
    (hn : ¬ n = 0) (hps : s.profiles = some ps)
    (hfind : ps.find? (fun p => p.id == n) = some profile)
    (hfound : ∀ kv ∈ profile.fixed_params ++ profile.default_values,
      (linkFindParameter s kv.1).isSome = true)
    (hnd : ((profile.fixed_params ++ profile.default_values).map Prod.fst).Nodup) :
    (handleProfileChange s n).receiverPendingChanges =
      applyProfileAsSetValues s profile [] ∧
    ∀ kv ∈ (handleProfileChange s n).receiverPendingChanges,
      ∃ p, linkFindParameter s kv.1 = some p ∧ kv.2 ≠ p.current_value := by
  have hpc : (handleProfileChange s n).receiverPendingChanges =
      (profile.fixed_params ++ profile.default_values).foldl (profileStage s) [] := by
    unfold handleProfileChange
    simp [hn, hps, hfind, List.foldl_append]
  rw [hpc]
  constructor
  · unfold applyProfileAsSetValues
    exact foldl_profileStage_eq_setValues s _ [] hfound hnd (fun kv _ => rfl)
  · exact mem_foldl_profileStage s _ []
      (fun kv h => absurd h (List.not_mem_nil kv))

/-- Witness for C9 as amended: the fixture profile staging X to 1. -/
theorem c9_amended_profile_replaces_with_staged_witness :
    (handleProfileChange exLinkProf 1).receiverPendingChanges =
      applyProfileAsSetValues exLinkProf exProfile [] :=
  (c9_amended_profile_replaces_with_staged exLinkProf 1 [exProfile] exProfile
    (by decide) rfl rfl (by decide) (by decide)).1

end HmConfig
